import Mathlib

/-
Verification of the split-tiling / overlapped-tiling core of ppcg
(src/split_tiling.c, src/overlapped_tiling.c, src/unnamed/part_001).

The C code manipulates isl values (points, sets, affine expressions,
schedule trees).  The embedding below mirrors it at the level of the
integer semantics of those objects:

* an `isl_point` restricted to the two band dimensions (time, space)
  becomes a pair of integers (`Point2`);
* the affine-expression strings assembled by `construct_bound` /
  `construct_phase` become an explicit expression tree (`AffExpr`) whose
  evaluation is the integer semantics isl gives the parsed string
  (`floor` on integers is `Int.fdiv`);
* C integer division (`/` on `int`, truncation towards zero) is
  `Int.tdiv`;
* the schedule tree becomes the inductive `STree`, and the global isl
  context options read and written by the code become an explicit
  `IslCtx` record threaded through the entry points, together with a
  trace of the facade operations performed (used for the claims about
  input validation and option save/restore).
-/

/-- The `INT32_MAX` sentinel used by `obtain_time_dim_size` and
`obtain_space_dim_size` to report an unbounded (zero-width) extent. -/
def INT32_MAX : Int := 2147483647

/-- A point restricted to the two leading band dimensions
(coordinate 0 = time, coordinate 1 = space), as read by the dependence
probe through `isl_point_get_coordinate_val`. -/
abbrev Point2 := Int × Int

/-- Lexicographic strict order on two-dimensional points, the order
used by `isl_union_set_lexmin` / `isl_union_set_lexmax` on the two band
dimensions. -/
def lexLt (p q : Point2) : Bool :=
  p.1 < q.1 || (p.1 = q.1 && p.2 < q.2)

/-- The lexicographically smallest point of a finite (nonempty) set of
points, modelling `isl_union_set_lexmin` followed by
`isl_union_set_sample_point` on a single-space set.  The value on the
empty list is junk (isl would fail there). -/
def lexminPt : List Point2 → Point2
  | [] => (0, 0)
  | p :: ps => ps.foldl (fun acc q => if lexLt q acc then q else acc) p

/-- The lexicographically greatest point of a finite (nonempty) set of
points, modelling `isl_union_set_lexmax` followed by sampling. -/
def lexmaxPt : List Point2 → Point2
  | [] => (0, 0)
  | p :: ps => ps.foldl (fun acc q => if lexLt acc q then q else acc) p

/-- A union set of iteration points: one named statement with its
(finite) list of points per entry, modelling `isl_union_set`. -/
abbrev UnionDom := List (String × List Point2)

/-- `isl_union_set_lexmax` on a union set: the per-statement
lexicographic maxima (there is one lexmax point per named space). -/
def usetLexmax (d : UnionDom) : List Point2 := d.map (fun s => lexmaxPt s.2)

/-- `isl_union_set_lexmin` on a union set: the per-statement
lexicographic minima. -/
def usetLexmin (d : UnionDom) : List Point2 := d.map (fun s => lexminPt s.2)

/-- `isl_union_set_sample_point`: an arbitrary (but deterministic)
point of a union set holding one point per statement.  isl picks one of
the per-space points in an unspecified internal order; the model picks
the first. -/
def usetSample (pts : List Point2) : Point2 := pts.headD (0, 0)

/-- Embedding of `obtain_time_dim_size` (src/split_tiling.c:102).
Returns -1 on a NULL domain; otherwise reads coordinate 0 of one sampled
lexmax point and one sampled lexmin point of the union domain and
returns their difference plus one, with the `INT32_MAX` sentinel when
the difference is zero. -/
def obtain_time_dim_size : Option UnionDom → Int
  | none => -1
  | some d =>
    let ub := (usetSample (usetLexmax d)).1
    let lb := (usetSample (usetLexmin d)).1
    let bound := ub - lb
    if bound = 0 then INT32_MAX else bound + 1

/-- Embedding of the `delta` / tile-size adjustment performed by
`split_tile` (src/split_tiling.c:1070-1078): `delta` starts as
`sizes[0] - 1`; when the `min_sync` option is set and the time bound is
not the `INT32_MAX` sentinel, `delta` becomes `bound - 1` and the time
entry of the tile-size vector is overwritten with `bound`. -/
def split_tile_delta_sizes (sizes : List Int) (minSync : Bool) (bound : Int) :
    Int × List Int :=
  let delta := sizes.headD 0 - 1
  if minSync && !(bound == INT32_MAX) then (bound - 1, sizes.set 0 bound)
  else (delta, sizes)

/-- Embedding of `split_tile_obtain_sink_point`
(src/split_tiling.c:358): advance the source point by `delta` along
coordinate 0 (time) and by `factor * delta` along coordinate 1
(space). -/
def split_tile_obtain_sink_point (p : Point2) (delta factor : Int) : Point2 :=
  (p.1 + delta, p.2 + factor * delta)

/-- Embedding of `split_tile_n_dependent_tiles`
(src/split_tiling.c:392): the space-tile coordinate difference between
sink and source tile, divided (C truncating division) by the space tile
size `sizes[1]` when the `tile_scale_tile_loops` option is set, plus
one. -/
def split_tile_n_dependent_tiles (source sink : Point2) (sizes : List Int)
    (scale : Bool) : Int :=
  let n := sink.2 - source.2
  let size := sizes.getD 1 0
  (if scale then Int.tdiv n size else n) + 1

/-- Embedding of `split_tile_compute_slope` (src/split_tiling.c:423):
the time difference between sink and source divided (C truncating
division) by the space difference. -/
def split_tile_compute_slope (source sink : Point2) : Int :=
  Int.tdiv (sink.1 - source.1) (sink.2 - source.2)

/-- Affine expressions over the statement's iteration dimensions, the
semantics of the inequality strings assembled by `construct_bound` and
`construct_phase` and of the isl affine expressions built by the
overlapped-tiling code.  `var i` is the i-th set dimension, `fdiv e d`
is isl's `floord(e, d)` (mathematical floor). -/
inductive AffExpr where
  | var : Nat → AffExpr
  | const : Int → AffExpr
  | add : AffExpr → AffExpr → AffExpr
  | sub : AffExpr → AffExpr → AffExpr
  | scale : Int → AffExpr → AffExpr
  | fdiv : AffExpr → Int → AffExpr
deriving DecidableEq, Repr

/-- Integer semantics of an affine expression under an environment
assigning a value to every dimension. -/
def AffExpr.eval (env : Nat → Int) : AffExpr → Int
  | AffExpr.var i => env i
  | AffExpr.const c => c
  | AffExpr.add a b => a.eval env + b.eval env
  | AffExpr.sub a b => a.eval env - b.eval env
  | AffExpr.scale k a => k * a.eval env
  | AffExpr.fdiv a d => Int.fdiv (a.eval env) d

/-- Embedding of the per-statement expression construction of
`construct_expr` (src/split_tiling.c:638) for the two-member tile band:
`e0` is the point-schedule expression of the time dimension, `e1` that
of the first space dimension.  When the two strings coincide the
statement is flagged as constraint-exempt (`no_constraints`); otherwise
the statement's expression becomes their difference `e1 - e0`. -/
def construct_expr_stmt (e0 e1 : AffExpr) : Bool × AffExpr :=
  if e1 = e0 then (true, e1) else (false, AffExpr.sub e1 e0)

/-- Embedding of the bound string assembled by `construct_bound`
(src/split_tiling.c:722) for one statement:

    (s - slope*t [+ c]) - ssz * floor((s - slope*t [+ shift]) / ssz)

where `c` is the statement's schedule constant, `shift` the space shift
of the multi-statement case and `ssz` the space tile size `sizes[1]`.
The string omits the `+ c` / `+ shift` summand when it is zero, which
the embedding mirrors with the two conditionals. -/
def construct_bound (slope c shift ssz : Int) : AffExpr :=
  let base := AffExpr.sub (AffExpr.var 1) (AffExpr.scale slope (AffExpr.var 0))
  let withc := if c = 0 then base else AffExpr.add base (AffExpr.const c)
  let farg := if shift = 0 then base else AffExpr.add base (AffExpr.const shift)
  AffExpr.sub withc (AffExpr.scale ssz (AffExpr.fdiv farg ssz))

/-- The tail expression `t - ssz*floor(t/tsz)` appended by
`construct_phase` (src/split_tiling.c:873-887) to shifted bounds, with
`ssz = sizes[1]` the space tile size and `tsz = sizes[0]` the time tile
size. -/
def phase_tail (tsz ssz : Int) : AffExpr :=
  AffExpr.sub (AffExpr.var 0) (AffExpr.scale ssz (AffExpr.fdiv (AffExpr.var 0) tsz))

/-- The lower bound emitted by `construct_phase`
(src/split_tiling.c:864-892) for phase `k` of `nPhase`: present exactly
when `k < nPhase - 1`; equal to the plain bound for `k = 0` and to
`bound - k*ssz + (t - ssz*floor(t/tsz))` for `k > 0`. -/
def phase_lb (nPhase k : Nat) (bound : AffExpr) (tsz ssz : Int) :
    Option AffExpr :=
  if k < nPhase - 1 then
    some (if 0 < k then
            AffExpr.add (AffExpr.sub bound (AffExpr.const ((k : Int) * ssz)))
              (phase_tail tsz ssz)
          else bound)
  else none

/-- The upper bound emitted by `construct_phase`
(src/split_tiling.c:896-923) for phase `k`: present exactly when
`k > 0`; equal to the plain bound for `k = 1` and to
`bound - (k-1)*ssz + (t - ssz*floor(t/tsz))` for `k > 1`. -/
def phase_ub (k : Nat) (bound : AffExpr) (tsz ssz : Int) : Option AffExpr :=
  if 0 < k then
    some (if 1 < k then
            AffExpr.add (AffExpr.sub bound (AffExpr.const (((k : Int) - 1) * ssz)))
              (phase_tail tsz ssz)
          else bound)
  else none

/-- The data `construct_phase` holds for one statement: the
constraint-exemption flag and expression from `construct_expr`, and the
slope, schedule constant and space shift from which `construct_bound`
assembles the bound. -/
structure StmtData where
  noConstraints : Bool
  expr : AffExpr
  slope : Int
  constant : Int
  spaceShift : Int
deriving DecidableEq, Repr

/-- The `lb <= expr < ub` clause `construct_phase` emits for one
statement in phase `k`: `none` when the statement is constraint-exempt
(its name is emitted with no `:` clause), otherwise the optional lower
bound, the expression, and the optional upper bound. -/
def phase_stmt_constraint (nPhase k : Nat) (d : StmtData) (tsz ssz : Int) :
    Option (Option AffExpr × AffExpr × Option AffExpr) :=
  if d.noConstraints then none
  else
    let bound := construct_bound d.slope d.constant d.spaceShift ssz
    some (phase_lb nPhase k bound tsz ssz, d.expr, phase_ub k bound tsz ssz)

/-- Membership of an iteration point (given by `env`) of one statement
in phase `k` of the union set parsed back from the string
`construct_phase` builds: trivially true for a constraint-exempt
statement, otherwise the conjunction of the present bound
inequalities. -/
def phaseMemB (nPhase k : Nat) (d : StmtData) (tsz ssz : Int)
    (env : Nat → Int) : Bool :=
  match phase_stmt_constraint nPhase k d tsz ssz with
  | none => true
  | some (lb, e, ub) =>
    (match lb with
     | none => true
     | some l => decide (l.eval env ≤ e.eval env)) &&
    (match ub with
     | none => true
     | some u => decide (e.eval env < u.eval env))

/-- The cut value separating phase `j` from phase `j-1`: the evaluated
lower bound of phase `j` (for `j < nPhase - 1`) and, equally, the
evaluated upper bound of phase `j+1`.  `phase_cut b T ssz 0 = b` is the
plain bound; for `j > 0` the bound is shifted by `-j*ssz + T`. -/
def phase_cut (b T ssz : Int) (j : Nat) : Int :=
  if j = 0 then b else b - (j : Int) * ssz + T

/-- A concrete stencil statement for evaluating the phase construction:
expression `s - t` (point schedule of space minus time), slope 1, no
schedule constant, no space shift — the data `construct_expr` /
`construct_bound` produce for the identity-scheduled 2D stencil. -/
def stencilStmtData : StmtData :=
  { noConstraints := false
    expr := AffExpr.sub (AffExpr.var 1) (AffExpr.var 0)
    slope := 1
    constant := 0
    spaceShift := 0 }

/-- The environment assigning `t = 5`, `s = 5` to the two statement
dimensions. -/
def envT5S5 : Nat → Int := fun i => if i = 0 then 5 else if i = 1 then 5 else 0

/-- Embedding of `obtain_maxmin_in_bmap` (src/unnamed/part_001:330)
applied to the list of output-dimension coefficients read from the
constraints of the dependence's basic map: the first list entry tracks
the maximum, the second the minimum; the first coefficient initializes
both.  `none` models the empty constraint list (isl would fail reading
the empty val list). -/
def obtain_maxmin_in_bmap : List Int → Option (Int × Int)
  | [] => none
  | v :: rest =>
    some (rest.foldl
      (fun mm w => (if mm.1 ≤ w then w else mm.1, if w ≤ mm.2 then w else mm.2))
      (v, v))

/-- The halo coefficient computed by `construct_overlapped_cond`
(src/unnamed/part_001:506-508): maximum minus minimum coefficient. -/
def overlapped_coeff (coeffs : List Int) : Int :=
  match obtain_maxmin_in_bmap coeffs with
  | none => 0
  | some mm => mm.1 - mm.2

/-- The upper-bound affine expression built by
`construct_overlapped_cond` (src/unnamed/part_001:473-479) on the
wrapped space of the expansion map (input dimensions `0..dim-1`,
duplicated output dimensions `dim..2*dim-1`):
`s_j + (sizes[j] - 1) - s_j'`, a nonnegativity constraint expressing
`duplicated <= original + tile_size - 1`. -/
def overlapped_upper_bound_aff (sizes : List Int) (dim j : Nat) : AffExpr :=
  AffExpr.sub
    (AffExpr.add (AffExpr.var j) (AffExpr.const (sizes.getD j 0 - 1)))
    (AffExpr.var (j + dim))

/-- The time-dimension remainder `t - T_t*floor(t/T_t)` built by
`construct_overlapped_cond` (src/unnamed/part_001:515-521), with
`T_t = sizes[0]` the time tile size. -/
def overlapped_time_mod (sizes : List Int) : AffExpr :=
  AffExpr.sub (AffExpr.var 0)
    (AffExpr.scale (sizes.getD 0 0) (AffExpr.fdiv (AffExpr.var 0) (sizes.getD 0 0)))

/-- The lower-bound affine expression built by
`construct_overlapped_cond` (src/unnamed/part_001:523-536):
`s_j' - (s_j - coeff*((sizes[j] - 1) - (t - T_t*floor(t/T_t))))`,
a nonnegativity constraint.  Note that the code adds the constant
`sizes[j] - 1` — the tile size of the overlapped SPACE dimension `j` —
where the function's own block comment (src/unnamed/part_001:421-443)
derives `T_t - 1`, the TIME tile size. -/
def overlapped_lower_bound_aff (sizes : List Int) (dim j : Nat) (coeff : Int) :
    AffExpr :=
  let halo := AffExpr.scale coeff
    (AffExpr.add (AffExpr.scale (-1) (overlapped_time_mod sizes))
      (AffExpr.const (sizes.getD j 0 - 1)))
  AffExpr.sub (AffExpr.var (j + dim)) (AffExpr.sub (AffExpr.var j) halo)

/-- The lower-bound affine expression as derived in the block comment
of `construct_overlapped_cond` (src/unnamed/part_001:421-443), which
uses the time tile size `T_t - 1 = sizes[0] - 1` as the remaining-step
count: `s_j' - (s_j - coeff*((T_t - 1) - (t - T_t*floor(t/T_t))))`. -/
def overlapped_lower_bound_aff_doc (sizes : List Int) (dim j : Nat)
    (coeff : Int) : AffExpr :=
  let halo := AffExpr.scale coeff
    (AffExpr.add (AffExpr.scale (-1) (overlapped_time_mod sizes))
      (AffExpr.const (sizes.getD 0 0 - 1)))
  AffExpr.sub (AffExpr.var (j + dim)) (AffExpr.sub (AffExpr.var j) halo)

/-- The environment over the wrapped 4-dimensional space (dim = 2) with
`t = 0`, `s = 0` on the input side and duplicated space coordinate
`s' = -10` on the output side. -/
def envDup : Nat → Int := fun i => if i = 3 then -10 else 0

/-- The mutable isl context options read and written by the tiling
entry points (`isl_options_get/set_tile_shift_point_loops` and
`isl_options_get_tile_scale_tile_loops`), made explicit. -/
structure IslCtx where
  shiftPointLoops : Int
  scaleTileLoops : Int
deriving DecidableEq, Repr

/-- The isl default options: point loops shifted, tile loops scaled. -/
def islCtxDefault : IslCtx := { shiftPointLoops := 1, scaleTileLoops := 1 }

/-- The observable facade operations performed by the entry points, for
the claims about input validation and option save/restore.
`bandTile v` records the value of the `tile_shift_point_loops` option
in effect when `isl_schedule_node_band_tile` is invoked. -/
inductive TEvent where
  | getDomain : TEvent
  | getShift : Int → TEvent
  | setShift : Int → TEvent
  | bandTile : Int → TEvent
  | insertExpansion : TEvent
  | insertSequence : TEvent
deriving DecidableEq, Repr

/-- A schedule tree: leaves, band nodes owning a per-member list of
affine schedule expressions, expansion nodes, and the sequence node
inserted by split tiling (carrying the number of phase filters). -/
inductive STree where
  | leaf : STree
  | band : List AffExpr → STree → STree
  | expansion : STree → STree
  | sequence : Nat → STree → STree
deriving DecidableEq, Repr

/-- The tile-dimension schedule produced by
`isl_schedule_node_band_tile` for one member: `sz*floor(e/sz)` when the
`tile_scale_tile_loops` option is set, `floor(e/sz)` otherwise. -/
def tile_dim_sched (scale : Bool) (sz : Int) (e : AffExpr) : AffExpr :=
  if scale then AffExpr.scale sz (AffExpr.fdiv e sz) else AffExpr.fdiv e sz

/-- The point-dimension schedule produced by
`isl_schedule_node_band_tile` for one member when the
`tile_shift_point_loops` option is set: `e - sz*floor(e/sz)`. -/
def point_dim_sched (sz : Int) (e : AffExpr) : AffExpr :=
  AffExpr.sub e (AffExpr.scale sz (AffExpr.fdiv e sz))

/-- Embedding of `isl_schedule_node_band_tile`: on a band node, replace
it by a tile band above a point band; point-loop schedules stay in the
original (global) coordinates when `tile_shift_point_loops` is unset.
On any other node isl reports an error and yields a null result. -/
def band_tile (ctx : IslCtx) (sizes : List Int) : STree → Option STree
  | STree.band sched child =>
    let tileS := (sched.zip sizes).map
      (fun p => tile_dim_sched (ctx.scaleTileLoops != 0) p.2 p.1)
    let pointS :=
      if ctx.shiftPointLoops != 0 then
        (sched.zip sizes).map (fun p => point_dim_sched p.2 p.1)
      else sched
    some (STree.band tileS (STree.band pointS child))
  | _ => none

/-- The number of expansion nodes in a schedule tree. -/
def countExpansion : STree → Nat
  | STree.leaf => 0
  | STree.band _ c => countExpansion c
  | STree.expansion c => countExpansion c + 1
  | STree.sequence _ c => countExpansion c

/-- The per-statement data `obtain_space_dim_size`
(src/unnamed/part_001:639) reads: the coordinates of the sampled lexmax
and lexmin points of the statement's domain, and the coefficients and
constant of the statement's schedule affine expression at the probed
band dimension. -/
structure OvStmt where
  name : String
  maxPt : List Int
  minPt : List Int
  coeffs : List Int
  constant : Int
deriving DecidableEq, Repr

/-- Embedding of `obtain_space_dim_size` (src/unnamed/part_001:639):
`bound = sum over i = 0..dim of coeffs[i]*(max_i - min_i), plus the
schedule constant`; the `INT32_MAX` sentinel is returned when the bound
is zero, and `bound + 1` otherwise. -/
def obtain_space_dim_size (st : OvStmt) (dim : Nat) : Int :=
  let s := (List.range (dim + 1)).foldl
    (fun acc i => acc + st.coeffs.getD i 0 * (st.maxPt.getD i 0 - st.minPt.getD i 0)) 0
  let bound := s + st.constant
  if bound = 0 then INT32_MAX else bound + 1

/-- The expansion-node insertion performed at the end of
`overlapped_tile` (src/unnamed/part_001:794-808): below the tile band
— directly above the point band, or, `after_mapping`, below the first
point dimension split off the point band. -/
def insert_expansion_model (afterMapping : Bool) : STree → STree
  | STree.band tileS (STree.band pointS c) =>
    if afterMapping then
      STree.band tileS (STree.band (pointS.take 1)
        (STree.expansion (STree.band (pointS.drop 1) c)))
    else
      STree.band tileS (STree.expansion (STree.band pointS c))
  | t => t

/-- The result of an overlapped-tiling call: the final option state,
the resulting tree (null on failure) and the trace of facade
operations. -/
structure OvResult where
  ctx : IslCtx
  result : Option STree
  trace : List TEvent
deriving Repr

/-- Embedding of `overlapped_tile` (src/unnamed/part_001:726).  The
function performs no input validation: it immediately inspects the
node's domain (event `getDomain`) and runs the tile-size pre-check.
If some statement's tile size `sizes[1]` reaches the extent returned by
`obtain_space_dim_size`, it falls back to plain parallelogram tiling
with the options as they are.  Otherwise it saves the
`tile_shift_point_loops` option, clears it, applies parallelogram
tiling, restores the option, and inserts an expansion node.  (On a
non-band node the C code proceeds into this same pre-check with a NULL
partial schedule — reading an uninitialized `isl_pw_aff` inside
`obtain_space_dim_size` — instead of validating; the model keeps the
pre-check on the statement data and lets the tiling call fail.) -/
def overlapped_tile (ctx : IslCtx) (node : STree) (domStmts : List OvStmt)
    (sizes : List Int) (_multiDim : Nat) (afterMapping : Bool) : OvResult :=
  if domStmts.any (fun st => decide (sizes.getD 1 0 ≥ obtain_space_dim_size st 1)) then
    { ctx := ctx
      result := band_tile ctx sizes node
      trace := [TEvent.getDomain, TEvent.bandTile ctx.shiftPointLoops] }
  else
    let shift := ctx.shiftPointLoops
    let ctx0 : IslCtx := { ctx with shiftPointLoops := 0 }
    let tiled := band_tile ctx0 sizes node
    let ctx1 : IslCtx := { ctx0 with shiftPointLoops := shift }
    { ctx := ctx1
      result := tiled.map (insert_expansion_model afterMapping)
      trace := [TEvent.getDomain, TEvent.getShift shift, TEvent.setShift 0,
        TEvent.bandTile 0, TEvent.setShift shift, TEvent.insertExpansion] }

/-- The tiled schedule applied to a point of the two-member band, for
the identity band schedule `(t, s)`: the tile coordinates
`(sz*floor(t/sz), sz*floor(s/sz))` (scaled) or the floors (unscaled),
modelling the partial schedule union map of the tiled band used by
`split_tile_obtain_source_tile` and `split_tile_obtain_sink_tile`. -/
def tiledApply (sizes : List Int) (scale : Bool) (p : Point2) : Point2 :=
  let s0 := sizes.getD 0 0
  let s1 := sizes.getD 1 0
  if scale then (s0 * Int.fdiv p.1 s0, s1 * Int.fdiv p.2 s1)
  else (Int.fdiv p.1 s0, Int.fdiv p.2 s1)

/-- The lexicographically smallest point mapped to the given
(scaled, aligned) tile coordinates, modelling the reverse-schedule
application and `lexmin` of `split_tile_obtain_source_point`: for the
scaled tiling of an identity band the lexmin preimage of an aligned
tile point is the point itself (see
`tile_preimage_lexmin_is_lexmin`). -/
def tile_preimage_lexmin (q : Point2) : Point2 := q

/-- The quantities `split_tile` (src/split_tiling.c:1044) computes
before constructing the phases. -/
structure SplitTileProbe where
  bound : Int
  delta : Int
  factor : Int
  slope : Int
  nList : Int
  sourceTile : Point2
  sourcePoint : Point2
  sinkPoint : Point2
  sinkTile : Point2
  sizes' : List Int
deriving Repr

/-- The dependence-probe portion of `split_tile`
(src/split_tiling.c:1060-1123) for a single-statement domain with an
identity band schedule: time bound, delta and adjusted tile sizes,
source tile and source point, the factor from the lexmax image of the
flow dependence at the source point, sink point and sink tile, the
number of phases `n_list`, and the slope. -/
def split_tile_probe (dom : List Point2) (dep : Point2 → List Point2)
    (minSync scale : Bool) (sizes : List Int) (name : String) : SplitTileProbe :=
  let bound := obtain_time_dim_size (some [(name, dom)])
  let ds := split_tile_delta_sizes sizes minSync bound
  let sourceTile := lexminPt (dom.map (tiledApply ds.2 scale))
  let sourcePoint := tile_preimage_lexmin sourceTile
  let pnt1 := lexmaxPt (dep sourcePoint)
  let factor := Int.tdiv (pnt1.2 - sourcePoint.2) (pnt1.1 - sourcePoint.1)
  let sinkPoint := split_tile_obtain_sink_point sourcePoint ds.1 factor
  let sinkTile := tiledApply ds.2 scale sinkPoint
  { bound := bound
    delta := ds.1
    factor := factor
    slope := split_tile_compute_slope sourcePoint sinkPoint
    nList := split_tile_n_dependent_tiles sourceTile sinkTile ds.2 scale + 1
    sourceTile := sourceTile
    sourcePoint := sourcePoint
    sinkPoint := sinkPoint
    sinkTile := sinkTile
    sizes' := ds.2 }

/-- The scop data `split_tile` consumes: the statement name, its
iteration domain, the flow-dependence relation and the
"minimize synchronization" option. -/
structure ScopModel where
  stmtName : String
  domain : List Point2
  dep : Point2 → List Point2
  minSync : Bool

/-- The result of a split-tiling call: the resulting tree (null on
failure) and the trace of facade operations. -/
structure SplitTileResult where
  result : Option STree
  trace : List TEvent

/-- Embedding of the `split_tile` entry point
(src/split_tiling.c:1044): a null node, null scop, null tile-size
vector, or a node that is not a band makes it return a null result
immediately, before any facade operation; otherwise it runs the
dependence probe, applies parallelogram tiling and inserts the phase
sequence below the first tile dimension. -/
def split_tile (ctx : IslCtx) (node : Option STree) (scop : Option ScopModel)
    (sizes : Option (List Int)) : SplitTileResult :=
  match node, scop, sizes with
  | some (STree.band sched child), some sc, some szs =>
    let pr := split_tile_probe sc.domain sc.dep sc.minSync
      (ctx.scaleTileLoops != 0) szs sc.stmtName
    match band_tile ctx pr.sizes' (STree.band sched child) with
    | some (STree.band tileS inner) =>
      { result := some (STree.band tileS (STree.sequence pr.nList.toNat inner))
        trace := [TEvent.bandTile ctx.shiftPointLoops, TEvent.insertSequence] }
    | _ =>
      { result := none
        trace := [TEvent.bandTile ctx.shiftPointLoops] }
  | _, _, _ => { result := none, trace := [] }

/-- The integers `0, 1, ..., n-1`. -/
def intRange (n : Nat) : List Int := (List.range n).map Int.ofNat

/-- The iteration domain of the concrete scenario:
`{S(t,i) : 0 <= t < 10 and 0 <= i < 20}`. -/
def scenarioDomain : List Point2 :=
  (intRange 10).flatMap (fun t => (intRange 20).map (fun i => (t, i)))

/-- The flow dependences of the concrete scenario:
`S(t,i) -> S(t+1,i)` and `S(t,i) -> S(t+1,i+1)`, `S(t,i) -> S(t+1,i-1)`,
restricted to the domain. -/
def scenarioDep (p : Point2) : List Point2 :=
  [(p.1 + 1, p.2), (p.1 + 1, p.2 + 1), (p.1 + 1, p.2 - 1)].filter
    (fun q => decide (0 ≤ q.1 ∧ q.1 < 10 ∧ 0 ≤ q.2 ∧ q.2 < 20))

/-- The dependence probe of `split_tile` on the concrete scenario with
tile sizes `(4,4)` and the default options (tile loops scaled, no
synchronization minimization). -/
def scenarioProbe : SplitTileProbe :=
  split_tile_probe scenarioDomain scenarioDep false true [4, 4] "S"

/-- A two-statement union domain whose statements have different
maximal time coordinates: `S1` reaches `t = 5`, `S2` reaches `t = 9`. -/
def timeDimCounterDom : UnionDom :=
  [("S1", [((0 : Int), (0 : Int)), (5, 0)]),
   ("S2", [((0 : Int), (0 : Int)), (9, 0)])]

/-- A two-member band node with the identity schedule `(t, s)` over a
leaf, the band the scenario hands to the tiling entry points. -/
def scenarioBand : STree :=
  STree.band [AffExpr.var 0, AffExpr.var 1] STree.leaf

/-- A statement whose extent along the probed dimension is small:
domain lexmax `(9, 19)`, lexmin `(0, 0)`, schedule coefficients `1, 1`
(the skewed schedule `t + s`), no constant — extent
`(9 - 0) + (19 - 0) = 28`, so `obtain_space_dim_size` returns `29`. -/
def ovStmtSmall : OvStmt :=
  { name := "S", maxPt := [9, 19], minPt := [0, 0], coeffs := [1, 1], constant := 0 }

theorem phaseMemB_eq_true_iff (n k : Nat) (d : StmtData) (tsz ssz : Int)
    (env : Nat → Int) (hd : d.noConstraints = false) :
    phaseMemB n k d tsz ssz env = true ↔
      ((k < n - 1 →
          phase_cut ((construct_bound d.slope d.constant d.spaceShift ssz).eval env)
            ((phase_tail tsz ssz).eval env) ssz k ≤ d.expr.eval env) ∧
        (0 < k →
          d.expr.eval env <
            phase_cut ((construct_bound d.slope d.constant d.spaceShift ssz).eval env)
              ((phase_tail tsz ssz).eval env) ssz (k - 1))) := by
  unfold phaseMemB phase_stmt_constraint phase_lb phase_ub
  rw [hd]
  by_cases h1 : k < n - 1 <;> by_cases h2 : 0 < k
  · by_cases h3 : 1 < k
    · have hk0 : k ≠ 0 := by omega
      have hk10 : k - 1 ≠ 0 := by omega
      have hcast : ((k - 1 : Nat) : Int) = (k : Int) - 1 := by omega
      simp [h1, h2, h3, phase_cut, hk0, hk10, AffExpr.eval, hcast]
    · have hk1 : k = 1 := by omega
      subst hk1
      simp [h1, h2, h3, phase_cut, AffExpr.eval]
  · have hk0 : k = 0 := by omega
    subst hk0
    simp [h1, h2, phase_cut, AffExpr.eval]
  · by_cases h3 : 1 < k
    · have hk0 : k ≠ 0 := by omega
      have hk10 : k - 1 ≠ 0 := by omega
      have hcast : ((k - 1 : Nat) : Int) = (k : Int) - 1 := by omega
      simp [h1, h2, h3, phase_cut, hk0, hk10, AffExpr.eval, hcast]
    · have hk1 : k = 1 := by omega
      subst hk1
      simp [h1, h2, h3, phase_cut, AffExpr.eval]
  · have hk0 : k = 0 := by omega
    subst hk0
    simp [h1, h2, phase_cut, AffExpr.eval]

theorem phases_cover (n : Nat) (hn : 2 ≤ n) (d : StmtData) (tsz ssz : Int)
    (env : Nat → Int) : ∃ k, k < n ∧ phaseMemB n k d tsz ssz env = true := by
  by_cases hd : d.noConstraints = true
  · exact ⟨0, by omega, by simp [phaseMemB, phase_stmt_constraint, hd]⟩
  · have hd' : d.noConstraints = false := by
      cases h : d.noConstraints
      · rfl
      · exact absurd h hd
    set b := (construct_bound d.slope d.constant d.spaceShift ssz).eval env with hb
    set T := (phase_tail tsz ssz).eval env with hT
    set x := d.expr.eval env with hx
    by_cases hx0 : b ≤ x
    · refine ⟨0, by omega, ?_⟩
      rw [phaseMemB_eq_true_iff n 0 d tsz ssz env hd']
      refine ⟨fun _ => ?_, fun h => absurd h (by omega)⟩
      simpa [phase_cut] using hx0
    · by_cases hlast : x < phase_cut b T ssz (n - 2)
      · refine ⟨n - 1, by omega, ?_⟩
        rw [phaseMemB_eq_true_iff n (n - 1) d tsz ssz env hd']
        refine ⟨fun h => absurd h (by omega), fun _ => ?_⟩
        have heq : n - 1 - 1 = n - 2 := by omega
        rw [heq]
        exact hlast
      · have hn3 : 3 ≤ n := by
          by_contra hc
          have hn2 : n = 2 := by omega
          subst hn2
          simp [phase_cut] at hlast
          omega
        have hex : ∃ j, phase_cut b T ssz (j + 1) ≤ x := by
          refine ⟨n - 3, ?_⟩
          have heq : n - 3 + 1 = n - 2 := by omega
          rw [heq]
          omega
        have hk1 : phase_cut b T ssz (Nat.find hex + 1) ≤ x := Nat.find_spec hex
        have hkle : Nat.find hex ≤ n - 3 := Nat.find_le (by
          have heq : n - 3 + 1 = n - 2 := by omega
          rw [heq]
          omega)
        refine ⟨Nat.find hex + 1, by omega, ?_⟩
        rw [phaseMemB_eq_true_iff n (Nat.find hex + 1) d tsz ssz env hd']
        refine ⟨fun _ => hk1, fun _ => ?_⟩
        rcases Nat.eq_zero_or_pos (Nat.find hex) with h0 | hpos
        · rw [h0]
          simpa [phase_cut] using hx0
        · have hmin : ¬ phase_cut b T ssz ((Nat.find hex - 1) + 1) ≤ x :=
            Nat.find_min hex (by omega)
          have heq : (Nat.find hex - 1) + 1 = Nat.find hex + 1 - 1 := by omega
          rw [heq] at hmin
          exact not_le.mp hmin

theorem two_phase_disjoint (d : StmtData) (tsz ssz : Int) (env : Nat → Int)
    (hd : d.noConstraints = false) :
    ¬(phaseMemB 2 0 d tsz ssz env = true ∧ phaseMemB 2 1 d tsz ssz env = true) := by
  rw [phaseMemB_eq_true_iff 2 0 d tsz ssz env hd,
    phaseMemB_eq_true_iff 2 1 d tsz ssz env hd]
  rintro ⟨⟨hlb, -⟩, ⟨-, hub⟩⟩
  have h1 := hlb (by omega)
  have h2 := hub (by omega)
  simp [phase_cut] at h1 h2
  omega

/-- C1 (amended): the `n_phases` phase sets built by `construct_phase`
are jointly exhaustive (every point of every statement lies in some
phase, for every run with at least two phases), and in the two-phase
case they are pairwise disjoint for every statement that receives
constraints.  (As stated, the claim is false: for `n_phases ≥ 3`
distinct phases can overlap, and constraint-exempt statements appear in
every phase — see the counterexample.) -/
theorem split_tile_phases_exhaustive_two_phase_disjoint :
    (∀ (n : Nat) (d : StmtData) (tsz ssz : Int) (env : Nat → Int), 2 ≤ n →
        ∃ k, k < n ∧ phaseMemB n k d tsz ssz env = true) ∧
    (∀ (d : StmtData) (tsz ssz : Int) (env : Nat → Int),
        d.noConstraints = false →
        ¬(phaseMemB 2 0 d tsz ssz env = true ∧
          phaseMemB 2 1 d tsz ssz env = true)) :=
  ⟨fun n d tsz ssz env hn => phases_cover n hn d tsz ssz env,
   fun d tsz ssz env hd => two_phase_disjoint d tsz ssz env hd⟩

/-- Witness for C1 at the concrete stencil statement with tile sizes
`(4,4)` and the point `(t,s) = (5,5)`. -/
theorem split_tile_phases_exhaustive_two_phase_disjoint_witness :
    (∃ k, k < 2 ∧ phaseMemB 2 k stencilStmtData 4 4 envT5S5 = true) ∧
    ¬(phaseMemB 2 0 stencilStmtData 4 4 envT5S5 = true ∧
      phaseMemB 2 1 stencilStmtData 4 4 envT5S5 = true) :=
  ⟨split_tile_phases_exhaustive_two_phase_disjoint.1 2 stencilStmtData 4 4 envT5S5
      (by decide),
   split_tile_phases_exhaustive_two_phase_disjoint.2 stencilStmtData 4 4 envT5S5
      (by decide)⟩

/-- Counterexample for C1 as stated: with tile sizes `(8,2)` (time tile
larger than space tile) and three phases, the point `(t,s) = (5,5)` of
the stencil statement lies in phase 0 and in phase 2 simultaneously, so
the pairwise intersection of distinct phases is not empty. -/
theorem split_tile_phase_overlap_counterexample :
    phaseMemB 3 0 stencilStmtData 8 2 envT5S5 = true ∧
    phaseMemB 3 2 stencilStmtData 8 2 envT5S5 = true := by decide

/-- C2 (amended): in the `lb <= expr < ub` clause built by
`construct_phase`, the lower bound is present exactly for the phases
`k < n_phases - 1` (plain `B` for `k = 0`, and
`B - k*ssz + (t - ssz*floor(t/tsz))` for `0 < k`), and the upper bound
is present exactly for `k > 0` (plain `B` for `k = 1`, and the same
template with `k - 1` for `k > 1`).  Hence the last phase has no lower
bound and the first phase has no upper bound — the reverse of the
claim, which puts the missing lower bound on phase 0 and the missing
upper bound on the last phase. -/
theorem construct_phase_bound_presence :
    ∀ (n k : Nat) (bound : AffExpr) (tsz ssz : Int),
      ((phase_lb n k bound tsz ssz).isSome ↔ k < n - 1) ∧
      ((phase_ub k bound tsz ssz).isSome ↔ 0 < k) ∧
      (0 < k → k < n - 1 →
        phase_lb n k bound tsz ssz =
          some (AffExpr.add (AffExpr.sub bound (AffExpr.const ((k : Int) * ssz)))
            (phase_tail tsz ssz))) ∧
      (0 < n - 1 → phase_lb n 0 bound tsz ssz = some bound) ∧
      (1 < k →
        phase_ub k bound tsz ssz =
          some (AffExpr.add (AffExpr.sub bound (AffExpr.const (((k : Int) - 1) * ssz)))
            (phase_tail tsz ssz))) ∧
      phase_ub 1 bound tsz ssz = some bound := by
  intro n k bound tsz ssz
  refine ⟨?_, ?_, ?_, ?_, ?_, ?_⟩
  · by_cases h : k < n - 1 <;> simp [phase_lb, h]
  · by_cases h : 0 < k <;> simp [phase_ub, h]
  · intro hk hn
    simp [phase_lb, hn, hk]
  · intro hn
    simp [phase_lb, hn]
  · intro hk
    have hk0 : 0 < k := by omega
    simp [phase_ub, hk, hk0]
  · simp [phase_ub]

/-- Witness for C2 at phase `k = 2` of `n_phases = 4` with tile sizes
`(8,2)`: the interior lower bound is the shifted template. -/
theorem construct_phase_bound_presence_witness :
    phase_lb 4 2 (AffExpr.var 1) 8 2 =
      some (AffExpr.add (AffExpr.sub (AffExpr.var 1) (AffExpr.const 4))
        (phase_tail 8 2)) := by
  have h := (construct_phase_bound_presence 4 2 (AffExpr.var 1) 8 2).2.2.1
    (by decide) (by decide)
  simpa using h

/-- Counterexample for C2 as stated: for `n_phases = 3` the last phase
`k = 2` has no lower bound but does have an upper bound, and the first
phase `k = 0` does have a lower bound — contradicting the claim that
the lower bound is present for every `k > 0`, absent for `k = 0`, and
that the upper bound is absent for the last phase. -/
theorem construct_phase_bound_reversal_counterexample :
    phase_lb 3 2 (construct_bound 1 0 0 2) 8 2 = none ∧
    (phase_ub 2 (construct_bound 1 0 0 2) 8 2).isSome = true ∧
    (phase_lb 3 0 (construct_bound 1 0 0 2) 8 2).isSome = true := by decide

/-- C7: a statement whose point-schedule expressions coincide on both
tile-band dimensions is flagged `no_constraints` by `construct_expr`,
`construct_phase` emits no `:` clause for it, and consequently every
iteration point of the statement belongs to every one of the phases. -/
theorem invariant_stmt_unconstrained (e0 e1 : AffExpr) (slope c shift : Int)
    (h : e1 = e0) :
    (construct_expr_stmt e0 e1).1 = true ∧
    ∀ (n k : Nat) (tsz ssz : Int) (env : Nat → Int),
      phase_stmt_constraint n k
        ⟨(construct_expr_stmt e0 e1).1, (construct_expr_stmt e0 e1).2,
          slope, c, shift⟩ tsz ssz = none ∧
      phaseMemB n k
        ⟨(construct_expr_stmt e0 e1).1, (construct_expr_stmt e0 e1).2,
          slope, c, shift⟩ tsz ssz env = true := by
  subst h
  refine ⟨by simp [construct_expr_stmt], fun n k tsz ssz env => ⟨?_, ?_⟩⟩
  · simp [phase_stmt_constraint, construct_expr_stmt]
  · simp [phaseMemB, phase_stmt_constraint, construct_expr_stmt]

/-- Witness for C7: the boundary statement whose band expressions are
both `t` is unconstrained in phase 1 of 3 at the point `(5,5)`. -/
theorem invariant_stmt_unconstrained_witness :
    (construct_expr_stmt (AffExpr.var 0) (AffExpr.var 0)).1 = true ∧
    phaseMemB 3 1
      ⟨(construct_expr_stmt (AffExpr.var 0) (AffExpr.var 0)).1,
        (construct_expr_stmt (AffExpr.var 0) (AffExpr.var 0)).2, 1, 0, 0⟩
      4 4 envT5S5 = true :=
  ⟨(invariant_stmt_unconstrained (AffExpr.var 0) (AffExpr.var 0) 1 0 0 rfl).1,
   ((invariant_stmt_unconstrained (AffExpr.var 0) (AffExpr.var 0) 1 0 0 rfl).2
      3 1 4 4 envT5S5).2⟩

theorem lexmax_foldl_fst (l : List Point2) :
    ∀ p : Point2,
      p.1 ≤ (l.foldl (fun acc r => if lexLt acc r then r else acc) p).1 ∧
      ∀ q ∈ l, q.1 ≤ (l.foldl (fun acc r => if lexLt acc r then r else acc) p).1 := by
  induction l with
  | nil => intro p; simp
  | cons a l ih =>
    intro p
    have hstep : p.1 ≤ (if lexLt p a then a else p).1 ∧
        a.1 ≤ (if lexLt p a then a else p).1 := by
      by_cases h : lexLt p a = true
      · simp only [if_pos h]
        simp [lexLt] at h
        omega
      · simp only [if_neg h]
        simp [lexLt] at h
        omega
    obtain ⟨h1, h2⟩ := ih (if lexLt p a then a else p)
    simp only [List.foldl_cons]
    refine ⟨le_trans hstep.1 h1, fun q hq => ?_⟩
    rcases List.mem_cons.mp hq with rfl | hq
    · exact le_trans hstep.2 h1
    · exact h2 q hq

theorem lexmin_foldl_fst (l : List Point2) :
    ∀ p : Point2,
      (l.foldl (fun acc r => if lexLt r acc then r else acc) p).1 ≤ p.1 ∧
      ∀ q ∈ l, (l.foldl (fun acc r => if lexLt r acc then r else acc) p).1 ≤ q.1 := by
  induction l with
  | nil => intro p; simp
  | cons a l ih =>
    intro p
    have hstep : (if lexLt a p then a else p).1 ≤ p.1 ∧
        (if lexLt a p then a else p).1 ≤ a.1 := by
      by_cases h : lexLt a p = true
      · simp only [if_pos h]
        simp [lexLt] at h
        omega
      · simp only [if_neg h]
        simp [lexLt] at h
        omega
    obtain ⟨h1, h2⟩ := ih (if lexLt a p then a else p)
    simp only [List.foldl_cons]
    refine ⟨le_trans h1 hstep.1, fun q hq => ?_⟩
    rcases List.mem_cons.mp hq with rfl | hq
    · exact le_trans h1 hstep.2
    · exact h2 q hq

theorem lexmaxPt_fst_ge (s : List Point2) : ∀ p ∈ s, p.1 ≤ (lexmaxPt s).1 := by
  cases s with
  | nil => simp
  | cons a l =>
    intro p hp
    rcases List.mem_cons.mp hp with rfl | hp
    · exact (lexmax_foldl_fst l p).1
    · exact (lexmax_foldl_fst l a).2 p hp

theorem lexminPt_fst_le (s : List Point2) : ∀ p ∈ s, (lexminPt s).1 ≤ p.1 := by
  cases s with
  | nil => simp
  | cons a l =>
    intro p hp
    rcases List.mem_cons.mp hp with rfl | hp
    · exact (lexmin_foldl_fst l p).1
    · exact (lexmin_foldl_fst l a).2 p hp

theorem lexLt_asymm_eq (p q : Point2) (h1 : lexLt p q = false)
    (h2 : lexLt q p = false) : p = q := by
  obtain ⟨p1, p2⟩ := p
  obtain ⟨q1, q2⟩ := q
  simp [lexLt] at h1 h2
  simp only [Prod.mk.injEq]
  omega

theorem lexLt_step_min (a b r : Point2)
    (h : lexLt (if lexLt b a then b else a) r = false) :
    lexLt a r = false ∧ lexLt b r = false := by
  by_cases hba : lexLt b a = true
  · rw [if_pos hba] at h
    simp [lexLt] at hba h ⊢
    omega
  · rw [if_neg hba] at h
    simp [lexLt] at hba h ⊢
    omega

theorem lexmin_foldl_not_lt (l : List Point2) :
    ∀ a : Point2,
      lexLt a (l.foldl (fun acc q => if lexLt q acc then q else acc) a) = false ∧
      ∀ q ∈ l,
        lexLt q (l.foldl (fun acc q => if lexLt q acc then q else acc) a) = false := by
  induction l with
  | nil =>
    intro a
    refine ⟨?_, by simp⟩
    simp [lexLt]
  | cons b l ih =>
    intro a
    simp only [List.foldl_cons]
    obtain ⟨h1, h2⟩ := ih (if lexLt b a then b else a)
    have hab := lexLt_step_min a b _ h1
    refine ⟨hab.1, fun q hq => ?_⟩
    rcases List.mem_cons.mp hq with rfl | hq
    · exact hab.2
    · exact h2 q hq

theorem lexmin_foldl_mem (l : List Point2) :
    ∀ a : Point2,
      l.foldl (fun acc q => if lexLt q acc then q else acc) a = a ∨
      l.foldl (fun acc q => if lexLt q acc then q else acc) a ∈ l := by
  induction l with
  | nil => intro a; exact Or.inl rfl
  | cons b l ih =>
    intro a
    simp only [List.foldl_cons]
    rcases ih (if lexLt b a then b else a) with h | h
    · by_cases hba : lexLt b a = true
      · rw [if_pos hba] at h ⊢
        exact Or.inr (by rw [h]; exact List.mem_cons_self b l)
      · rw [if_neg hba] at h ⊢
        exact Or.inl h
    · exact Or.inr (List.mem_cons_of_mem b h)

/-- Characterization of `lexminPt`: an element below which no other
element of the list lies is THE lexicographic minimum the fold
computes. -/
theorem lexminPt_eq_of (l : List Point2) (p : Point2) (hmem : p ∈ l)
    (hmin : ∀ q ∈ l, lexLt q p = false) : lexminPt l = p := by
  cases l with
  | nil => exact absurd hmem (List.not_mem_nil p)
  | cons a t =>
    have hm := lexmin_foldl_mem t a
    have hn := lexmin_foldl_not_lt t a
    show t.foldl (fun acc q => if lexLt q acc then q else acc) a = p
    have hrp : lexLt (t.foldl (fun acc q => if lexLt q acc then q else acc) a)
        p = false := by
      rcases hm with h | h
      · rw [h]; exact hmin a (List.mem_cons_self a t)
      · exact hmin _ (List.mem_cons_of_mem a h)
    have hpr : lexLt p (t.foldl (fun acc q => if lexLt q acc then q else acc) a)
        = false := by
      rcases List.mem_cons.mp hmem with rfl | hp
      · exact hn.1
      · exact hn.2 p hp
    exact lexLt_asymm_eq _ _ hrp hpr

theorem intRange_mem_bounds (n : Nat) :
    ∀ x ∈ intRange n, 0 ≤ x ∧ x < (n : Int) := by
  intro x hx
  unfold intRange at hx
  rw [List.mem_map] at hx
  obtain ⟨k, hk, rfl⟩ := hx
  rw [List.mem_range] at hk
  have hcast : Int.ofNat k = (k : Int) := rfl
  rw [hcast]
  constructor <;> omega

/-- The source tile of the concrete scenario: the lexicographic minimum
of the scaled tile coordinates of the domain is the origin tile. -/
theorem scenario_source_tile :
    lexminPt (scenarioDomain.map (tiledApply [4, 4] true)) = (0, 0) := by
  apply lexminPt_eq_of
  · decide
  · intro q hq
    rw [List.mem_map] at hq
    obtain ⟨p, hp, rfl⟩ := hq
    unfold scenarioDomain at hp
    rw [List.mem_flatMap] at hp
    obtain ⟨t, ht, hp⟩ := hp
    rw [List.mem_map] at hp
    obtain ⟨i, hi, rfl⟩ := hp
    have ht' := intRange_mem_bounds 10 t ht
    have hi' := intRange_mem_bounds 20 i hi
    have h1 : 0 ≤ Int.fdiv t 4 := Int.fdiv_nonneg ht'.1 (by norm_num)
    have h2 : 0 ≤ Int.fdiv i 4 := Int.fdiv_nonneg hi'.1 (by norm_num)
    simp [tiledApply, lexLt]
    omega

/-- Justification for `tile_preimage_lexmin`: a tile point `q` aligned
to the scaled tiling is itself the lexicographic minimum of the set of
points the tiled schedule maps to `q`. -/
theorem tile_preimage_lexmin_is_lexmin (sizes : List Int) (q : Point2)
    (h0 : 0 < sizes.getD 0 0) (h1 : 0 < sizes.getD 1 0)
    (halign : tiledApply sizes true q = q) :
    tiledApply sizes true (tile_preimage_lexmin q) = q ∧
    ∀ p, tiledApply sizes true p = q → lexLt p (tile_preimage_lexmin q) = false := by
  refine ⟨halign, fun p hp => ?_⟩
  simp only [tiledApply, if_pos] at hp
  have e1 := Int.fdiv_add_fmod p.1 (sizes.getD 0 0)
  have e1' := Int.fmod_nonneg' p.1 h0
  have e2 := Int.fdiv_add_fmod p.2 (sizes.getD 1 0)
  have e2' := Int.fmod_nonneg' p.2 h1
  have hq1 : sizes.getD 0 0 * Int.fdiv p.1 (sizes.getD 0 0) = q.1 :=
    congrArg Prod.fst hp
  have hq2 : sizes.getD 1 0 * Int.fdiv p.2 (sizes.getD 1 0) = q.2 :=
    congrArg Prod.snd hp
  simp only [tile_preimage_lexmin, lexLt]
  simp only [Bool.or_eq_false_iff, decide_eq_false_iff_not, Bool.and_eq_false_iff]
  omega

/-- C3: the bounds `construct_overlapped_cond` places on a duplicated
space coordinate.  The upper bound is `duplicated <= original +
(tile_size - 1)` as claimed.  The lower bound, however, scales the halo
by `(sizes[j] - 1) - (t mod T_t)` — the SPACE tile size of the
overlapped dimension — whereas the claim and the function's own block
comment use `(T_t - 1) - (t mod T_t)` with `T_t` the TIME tile size.
With tile sizes `(8,2)`, halo coefficient `2` (slopes `1` and `-1`) and
the point `t = 0, s = 0, s' = -10`: the constraint the code builds
evaluates to `-8` (the duplicated point is rejected), while the
documented constraint evaluates to `4` (the point is admitted); the two
expressions coincide only when the two tile sizes are equal, as with
`(4,4)`. -/
theorem overlapped_halo_uses_space_tile_size :
    overlapped_coeff [1, 0, -1] = 2 ∧
    (overlapped_upper_bound_aff [8, 2] 2 1).eval envDup = 11 ∧
    (overlapped_lower_bound_aff [8, 2] 2 1 2).eval envDup = -8 ∧
    (overlapped_lower_bound_aff_doc [8, 2] 2 1 2).eval envDup = 4 ∧
    overlapped_lower_bound_aff [8, 2] 2 1 2 ≠
      overlapped_lower_bound_aff_doc [8, 2] 2 1 2 ∧
    overlapped_lower_bound_aff [4, 4] 2 1 2 =
      overlapped_lower_bound_aff_doc [4, 4] 2 1 2 := by
  decide

/-- C4: when some statement's configured tile size along the overlap
dimension reaches the extent computed by `obtain_space_dim_size`,
`overlapped_tile` returns exactly the result of plain parallelogram
tiling (`band_tile` with the options as they are), leaves the option
state untouched, and inserts no expansion node. -/
theorem overlapped_tile_fallback_plain_tiling (ctx : IslCtx) (node : STree)
    (domStmts : List OvStmt) (sizes : List Int) (multiDim : Nat)
    (afterMapping : Bool)
    (h : ∃ st ∈ domStmts, sizes.getD 1 0 ≥ obtain_space_dim_size st 1) :
    (overlapped_tile ctx node domStmts sizes multiDim afterMapping).result =
      band_tile ctx sizes node ∧
    (overlapped_tile ctx node domStmts sizes multiDim afterMapping).ctx = ctx ∧
    ∀ t, band_tile ctx sizes node = some t →
      countExpansion t = countExpansion node := by
  have hany : (domStmts.any fun st =>
      decide (sizes.getD 1 0 ≥ obtain_space_dim_size st 1)) = true := by
    rw [List.any_eq_true]
    obtain ⟨st, hm, hge⟩ := h
    exact ⟨st, hm, by simpa using hge⟩
  refine ⟨?_, ?_, ?_⟩
  · simp only [overlapped_tile]
    rw [hany]
    simp
  · simp only [overlapped_tile]
    rw [hany]
    simp
  intro t ht
  cases node with
  | band sched child =>
    simp only [band_tile, Option.some.injEq] at ht
    rw [← ht]
    simp [countExpansion]
  | leaf => simp [band_tile] at ht
  | expansion c => simp [band_tile] at ht
  | sequence n c => simp [band_tile] at ht

/-- Witness for C4: the identity band over the scenario statement with
tile sizes `(4,30)` — the space tile size `30` exceeds the extent `29`,
so the fallback is taken. -/
theorem overlapped_tile_fallback_plain_tiling_witness :
    (overlapped_tile islCtxDefault scenarioBand [ovStmtSmall] [4, 30] 0
        false).result = band_tile islCtxDefault [4, 30] scenarioBand ∧
    (overlapped_tile islCtxDefault scenarioBand [ovStmtSmall] [4, 30] 0
        false).ctx = islCtxDefault :=
  ⟨(overlapped_tile_fallback_plain_tiling islCtxDefault scenarioBand
      [ovStmtSmall] [4, 30] 0 false ⟨ovStmtSmall, by decide, by decide⟩).1,
   (overlapped_tile_fallback_plain_tiling islCtxDefault scenarioBand
      [ovStmtSmall] [4, 30] 0 false ⟨ovStmtSmall, by decide, by decide⟩).2.1⟩

/-- C5: the time advance `delta` of `split_tile` equals
`tile_time_size - 1` (the head of the tile-size vector minus one),
except that with the "minimize synchronization" option set and a finite
time bound (not the `INT32_MAX` sentinel) it equals
`time_dim_size - 1` and the time entry of the tile-size vector is
overwritten with the full bound; the sink point advances the source
point by `delta` along time and `factor*delta` along space. -/
theorem split_tile_min_sync_delta (sizes : List Int) (minSync : Bool)
    (bound : Int) (p : Point2) (factor : Int) :
    (minSync = true → bound ≠ INT32_MAX →
      split_tile_delta_sizes sizes minSync bound =
        (bound - 1, sizes.set 0 bound)) ∧
    (minSync = false ∨ bound = INT32_MAX →
      split_tile_delta_sizes sizes minSync bound =
        (sizes.headD 0 - 1, sizes)) ∧
    split_tile_obtain_sink_point p (split_tile_delta_sizes sizes minSync bound).1
        factor =
      (p.1 + (split_tile_delta_sizes sizes minSync bound).1,
        p.2 + factor * (split_tile_delta_sizes sizes minSync bound).1) := by
  refine ⟨?_, ?_, rfl⟩
  · intro h1 h2
    simp [split_tile_delta_sizes, h1, h2]
  · rintro (h | h) <;> simp [split_tile_delta_sizes, h]

/-- Witness for C5: tile sizes `(4,4)`, minimize-synchronization on,
finite time bound `10`: delta becomes `9` and the tile-size vector
becomes `(10,4)`; the sink point advances accordingly. -/
theorem split_tile_min_sync_delta_witness :
    split_tile_delta_sizes [4, 4] true 10 = (10 - 1, [4, 4].set 0 10) ∧
    split_tile_obtain_sink_point (0, 0)
        (split_tile_delta_sizes [4, 4] true 10).1 1 =
      ((0 : Int) + (split_tile_delta_sizes [4, 4] true 10).1,
        (0 : Int) + 1 * (split_tile_delta_sizes [4, 4] true 10).1) :=
  ⟨(split_tile_min_sync_delta [4, 4] true 10 (0, 0) 1).1 rfl (by decide),
   (split_tile_min_sync_delta [4, 4] true 10 (0, 0) 1).2.2⟩

/-- C6 (amended): the number of phases computed by `split_tile` is
`split_tile_n_dependent_tiles + 1`, i.e. one more than the number of
distinct space-tile coordinates from source tile to sink tile
inclusive, where the raw tile-coordinate difference is divided by the
space tile size when the tile loops are SCALED (the claim divides it
when they are left unscaled).  On the concrete scenario
`{S(t,i) : 0 <= t < 10, 0 <= i < 20}` with dependences
`S(t,i) -> S(t+1, i+k)`, `k` in `{-1,0,1}`, and tile sizes `(4,4)`,
the computed factor is `1` and `n_phases = 2`. -/
theorem split_tile_n_phases_formula_and_scenario :
    (∀ (source sink : Point2) (sizes : List Int) (scale : Bool),
        split_tile_n_dependent_tiles source sink sizes scale + 1 =
          1 + ((if scale then Int.tdiv (sink.2 - source.2) (sizes.getD 1 0)
                else sink.2 - source.2) + 1)) ∧
    scenarioProbe.factor = 1 ∧ scenarioProbe.nList = 2 := by
  have hds2 : (split_tile_delta_sizes [4, 4] false
      (obtain_time_dim_size (some [("S", scenarioDomain)]))).2 = [4, 4] := rfl
  have hds1 : (split_tile_delta_sizes [4, 4] false
      (obtain_time_dim_size (some [("S", scenarioDomain)]))).1 = 3 := rfl
  refine ⟨fun source sink sizes scale => ?_, ?_, ?_⟩
  · cases scale <;> simp [split_tile_n_dependent_tiles] <;> omega
  · show (split_tile_probe scenarioDomain scenarioDep false true [4, 4]
        "S").factor = 1
    simp only [split_tile_probe, tile_preimage_lexmin]
    rw [hds2, scenario_source_tile]
    decide
  · show (split_tile_probe scenarioDomain scenarioDep false true [4, 4]
        "S").nList = 2
    simp only [split_tile_probe, tile_preimage_lexmin]
    rw [hds1, hds2, scenario_source_tile]
    decide

/-- Counterexample for C6 as stated: with tile loops left unscaled, the
code does NOT divide the tile-coordinate difference.  For source tile
`(0,0)`, sink tile `(0,2)` (two tiles apart in unscaled coordinates)
and space tile size `4`, the code computes `n_phases = 4`, while the
claim's formula — dividing by the tile size because the loops are
unscaled — yields `1 + 2/4 = 1` (or `1 + (2/4 + 1) = 2` reading "steps"
as the inclusive tile count). -/
theorem split_tile_n_phases_counterexample :
    split_tile_n_dependent_tiles (0, 0) (0, 2) [4, 4] false + 1 = 4 ∧
    (1 : Int) + Int.tdiv 2 4 = 1 ∧
    (1 : Int) + (Int.tdiv 2 4 + 1) = 2 ∧
    (4 : Int) ≠ 1 ∧ (4 : Int) ≠ 2 := by
  decide

/-- C8 (amended): `split_tile` returns a null result immediately — with
no facade operation — when the node, scop or tile-size vector is null
or the node is not a band; `overlapped_tile` performs no such
validation: even on a non-band node it proceeds into the domain
pre-check (its trace is nonempty) and fails only through error
propagation of the facade calls. -/
theorem entry_point_validation :
    (∀ (ctx : IslCtx) (node : Option STree) (scop : Option ScopModel)
        (sizes : Option (List Int)),
        (node = none ∨ scop = none ∨ sizes = none ∨
          ∀ sched child, node ≠ some (STree.band sched child)) →
        (split_tile ctx node scop sizes).result = none ∧
        (split_tile ctx node scop sizes).trace = []) ∧
    (∀ (ctx : IslCtx) (node : STree) (domStmts : List OvStmt)
        (sizes : List Int) (multiDim : Nat) (afterMapping : Bool),
        (∀ sched child, node ≠ STree.band sched child) →
        (overlapped_tile ctx node domStmts sizes multiDim afterMapping).result
            = none ∧
        (overlapped_tile ctx node domStmts sizes multiDim afterMapping).trace
            ≠ []) := by
  constructor
  · intro ctx node scop sizes h
    rcases node with _ | n
    · exact ⟨rfl, rfl⟩
    · rcases scop with _ | sc
      · cases n <;> exact ⟨rfl, rfl⟩
      · rcases sizes with _ | szs
        · cases n <;> exact ⟨rfl, rfl⟩
        · cases n with
          | band sched child =>
            rcases h with h | h | h | h
            · exact absurd h (by simp)
            · exact absurd h (by simp)
            · exact absurd h (by simp)
            · exact absurd rfl (h sched child)
          | leaf => exact ⟨rfl, rfl⟩
          | expansion c => exact ⟨rfl, rfl⟩
          | sequence k c => exact ⟨rfl, rfl⟩
  · intro ctx node domStmts sizes multiDim afterMapping h
    have hbt : ∀ (c : IslCtx) (s : List Int), band_tile c s node = none := by
      intro c s
      cases node with
      | band sched child => exact absurd rfl (h sched child)
      | leaf => rfl
      | expansion cc => rfl
      | sequence k cc => rfl
    rcases Bool.eq_false_or_eq_true (domStmts.any fun st =>
        decide (sizes.getD 1 0 ≥ obtain_space_dim_size st 1)) with hany | hany
    · exact ⟨by simp only [overlapped_tile]; rw [hany]; simp [hbt],
        by simp only [overlapped_tile]; rw [hany]; simp⟩
    · exact ⟨by simp only [overlapped_tile]; rw [hany]; simp [hbt],
        by simp only [overlapped_tile]; rw [hany]; simp⟩

/-- Witness for C8: `split_tile` on a null node yields a null result
with an empty trace; `overlapped_tile` on a leaf node yields a null
result with a nonempty trace. -/
theorem entry_point_validation_witness :
    ((split_tile islCtxDefault none none none).result = none ∧
      (split_tile islCtxDefault none none none).trace = []) ∧
    ((overlapped_tile islCtxDefault STree.leaf [] [4, 4] 0 false).result
        = none ∧
      (overlapped_tile islCtxDefault STree.leaf [] [4, 4] 0 false).trace
        ≠ []) :=
  ⟨entry_point_validation.1 islCtxDefault none none none (Or.inl rfl),
   entry_point_validation.2 islCtxDefault STree.leaf [] [4, 4] 0 false
     (fun _sched _child hn => STree.noConfusion hn)⟩

/-- Counterexample for C8 as stated: `overlapped_tile` on a non-band
(leaf) node does NOT return a failure result immediately — its trace of
facade operations is nonempty (the domain pre-check and the tiling path
run before the null result emerges). -/
theorem overlapped_tile_no_validation_counterexample :
    ¬((overlapped_tile islCtxDefault STree.leaf [] [4, 4] 0 false).result
          = none ∧
      (overlapped_tile islCtxDefault STree.leaf [] [4, 4] 0 false).trace
          = []) := by
  decide

/-- C9 (amended): `obtain_time_dim_size` returns `(max - min + 1)` of
the time coordinate of ONE SAMPLED statement of the union domain — the
head statement in this model, mirroring isl's arbitrary sample choice —
with the `INT32_MAX` sentinel when that width is zero; the sampled
lexmax (lexmin) point's time coordinate does bound the statement's own
points, so the value is the whole-domain `max - min + 1` exactly when
the domain has a single statement.  (As stated — over the whole
multi-statement domain — the claim fails; see the counterexample.) -/
theorem obtain_time_dim_size_sampled_statement (name : String)
    (s : List Point2) (rest : UnionDom) :
    obtain_time_dim_size (some ((name, s) :: rest)) =
      (if (lexmaxPt s).1 - (lexminPt s).1 = 0 then INT32_MAX
       else (lexmaxPt s).1 - (lexminPt s).1 + 1) ∧
    ∀ p ∈ s, p.1 ≤ (lexmaxPt s).1 ∧ (lexminPt s).1 ≤ p.1 := by
  refine ⟨rfl, fun p hp => ⟨lexmaxPt_fst_ge s p hp, lexminPt_fst_le s p hp⟩⟩

/-- Witness for C9 at the single-statement domain
`{(0,0), (5,0)}`: the probe returns `5 - 0 + 1 = 6` and the sampled
extremes bound the point `(5,0)`. -/
theorem obtain_time_dim_size_sampled_statement_witness :
    obtain_time_dim_size (some [("S1", [((0 : Int), (0 : Int)), (5, 0)])]) =
      (if (lexmaxPt [((0 : Int), (0 : Int)), (5, 0)]).1 -
            (lexminPt [((0 : Int), (0 : Int)), (5, 0)]).1 = 0 then INT32_MAX
       else (lexmaxPt [((0 : Int), (0 : Int)), (5, 0)]).1 -
            (lexminPt [((0 : Int), (0 : Int)), (5, 0)]).1 + 1) ∧
    (((5 : Int), (0 : Int)).1 ≤ (lexmaxPt [((0 : Int), (0 : Int)), (5, 0)]).1 ∧
      (lexminPt [((0 : Int), (0 : Int)), (5, 0)]).1 ≤ ((5 : Int), (0 : Int)).1) :=
  ⟨(obtain_time_dim_size_sampled_statement "S1"
      [((0 : Int), (0 : Int)), (5, 0)] []).1,
   (obtain_time_dim_size_sampled_statement "S1"
      [((0 : Int), (0 : Int)), (5, 0)] []).2 (5, 0) (by decide)⟩

/-- Counterexample for C9 as stated: on the two-statement domain whose
first statement reaches time `5` and whose second reaches time `9`
(both starting at `0`), the code returns `6`, not the whole-domain
`9 - 0 + 1 = 10`. -/
theorem obtain_time_dim_size_union_counterexample :
    obtain_time_dim_size (some timeDimCounterDom) = 6 ∧
    (∃ e ∈ timeDimCounterDom, ∃ p ∈ e.2, p.1 = 9) ∧
    (∀ e ∈ timeDimCounterDom, ∀ p ∈ e.2, 0 ≤ p.1 ∧ p.1 ≤ 9) ∧
    (∃ e ∈ timeDimCounterDom, ∃ p ∈ e.2, p.1 = 0) ∧
    (6 : Int) ≠ 9 - 0 + 1 := by
  decide

/-- C10: on the overlap path (no statement triggers the plain-tiling
fallback), `overlapped_tile` restores the `tile_shift_point_loops`
option to its incoming value before returning — the option state seen
by the caller is unchanged — and the option is `0` exactly for the
duration of the internal parallelogram-tiling call: the trace is the
save, the clear, the tiling under `0`, and the restore, followed by the
expansion insertion. -/
theorem overlapped_tile_shift_option_restored (ctx : IslCtx) (node : STree)
    (domStmts : List OvStmt) (sizes : List Int) (multiDim : Nat)
    (afterMapping : Bool)
    (h : ∀ st ∈ domStmts, ¬(sizes.getD 1 0 ≥ obtain_space_dim_size st 1)) :
    (overlapped_tile ctx node domStmts sizes multiDim afterMapping).ctx = ctx ∧
    (overlapped_tile ctx node domStmts sizes multiDim afterMapping).trace =
      [TEvent.getDomain, TEvent.getShift ctx.shiftPointLoops, TEvent.setShift 0,
        TEvent.bandTile 0, TEvent.setShift ctx.shiftPointLoops,
        TEvent.insertExpansion] := by
  have hany : (domStmts.any fun st =>
      decide (sizes.getD 1 0 ≥ obtain_space_dim_size st 1)) = false := by
    rw [List.any_eq_false]
    intro st hm
    simpa using h st hm
  exact ⟨by simp only [overlapped_tile]; rw [hany]; simp,
    by simp only [overlapped_tile]; rw [hany]; simp⟩

/-- Witness for C10: the identity band over the scenario statement with
tile sizes `(4,4)` (space tile `4` below the extent `29`): the overlap
path runs, the option is cleared for the tiling call only, and the
caller-visible option state is unchanged. -/
theorem overlapped_tile_shift_option_restored_witness :
    (overlapped_tile islCtxDefault scenarioBand [ovStmtSmall] [4, 4] 0
        false).ctx = islCtxDefault ∧
    (overlapped_tile islCtxDefault scenarioBand [ovStmtSmall] [4, 4] 0
        false).trace =
      [TEvent.getDomain, TEvent.getShift islCtxDefault.shiftPointLoops,
        TEvent.setShift 0, TEvent.bandTile 0,
        TEvent.setShift islCtxDefault.shiftPointLoops,
        TEvent.insertExpansion] :=
  overlapped_tile_shift_option_restored islCtxDefault scenarioBand
    [ovStmtSmall] [4, 4] 0 false (by decide)
